import Mathlib

/-!
Verification of the hostel repair synchronization subsystem of the dashboard.

The frontend (React) sources are embedded directly from
src/frontend/src/services/syncService.js, the Sync Status page
(src/unnamed/part_004) and the Hall Selection page (src/unnamed/part_007).
The backend sync engine (FastAPI service) is not part of the source tree;
its behaviour is modelled from the specification where needed, with each
such definition marked in its doc comment.
-/

namespace Hostel

/-- Terminal or in-flight status of a sync run, as the status strings
success / failed / in-progress that the UI inspects. -/
inductive RunStatus where
  | success
  | failed
  | inProgress
deriving DecidableEq, BEq, Repr

/-- A SyncRunSummary JSON object exactly as the UI layer reads it:
the Sync Status page (src/unnamed/part_004) accesses the fields
id (line 308), started_at / completed_at (249, 313), status (252, 255),
rows_processed / rows_created / rows_skipped (316), sync_type (317)
and errors (127).  Timestamps are milliseconds since the epoch,
completed_at being none when the run has not finished. -/
structure SyncSummaryJs where
  id : Nat
  sync_type : String
  started_at : Nat
  completed_at : Option Nat
  status : String
  rows_processed : Nat
  rows_created : Nat
  rows_skipped : Nat
  errors : List String
deriving DecidableEq, Repr

/-- The field names the Sync Status page reads off each summary object,
collected from the accesses listed on SyncSummaryJs. -/
def uiSummaryFields : List String :=
  ["id", "sync_type", "started_at", "completed_at", "status",
   "rows_processed", "rows_created", "rows_skipped", "errors"]

/-- The meta line rendered for one entry of the Recent Logs list,
src/unnamed/part_004 lines 315-318. -/
def recentLogMetaLine (s : SyncSummaryJs) : String :=
  toString s.rows_processed ++ " rows processed • " ++
    toString s.rows_created ++ " created • " ++
    toString s.rows_skipped ++ " skipped" ++
    (if s.sync_type = "manual" then " • Manual" else "")

/-- The payload of GET /sync/status as the frontend consumes it:
syncData.last_sync, syncData.last_failed_sync, syncData.recent_syncs
(src/unnamed/part_004 lines 215-217, 305). -/
structure SyncStatusData where
  last_sync : Option SyncSummaryJs
  last_failed_sync : Option SyncSummaryJs
  recent_syncs : List SyncSummaryJs
deriving DecidableEq, Repr

/-- addMinutes from date-fns on epoch-millisecond timestamps. -/
def addMinutes (t : Nat) (m : Nat) : Nat :=
  t + m * 60000

/-- getNextScheduledTime of the Sync Status page, src/unnamed/part_004
lines 191-195: null unless syncData.last_sync.completed_at is set,
otherwise that time plus 15 minutes. -/
def getNextScheduledTime (syncData : Option SyncStatusData) : Option Nat :=
  match syncData with
  | none => none
  | some d =>
    match d.last_sync with
    | none => none
    | some ls =>
      match ls.completed_at with
      | none => none
      | some t => some (addMinutes t 15)

/-- getNextScheduledTime of the Hall Selection page, src/unnamed/part_007
lines 99-103 (same logic on syncStatus.last_sync.completed_at). -/
def getNextScheduledTimeHall (syncStatus : Option SyncStatusData) : Option Nat :=
  match syncStatus with
  | none => none
  | some d =>
    match d.last_sync with
    | none => none
    | some ls =>
      match ls.completed_at with
      | none => none
      | some t => some (addMinutes t 15)

/-- An HTTP request the Sync Status page can issue to the sync API:
POST /sync/google-sheets (trigger) or GET /sync/status (poll). -/
inductive Req where
  | postTrigger
  | getStatus
deriving DecidableEq, Repr

/-- maxPollAttempts in handleManualSync, src/unnamed/part_004 line 105. -/
def maxPollAttempts : Nat := 6

/-- pollInterval (milliseconds) in handleManualSync, line 106. -/
def pollIntervalMs : Nat := 5000

/-- The completion test of checkSyncCompletion (lines 113-131): the last
sync counts as finished for us when it started at or after our trigger
time and its status is success or failed. -/
def finishedOurSync (syncStartTime : Nat) (d : SyncStatusData) : Bool :=
  match d.last_sync with
  | none => false
  | some ls =>
    decide (syncStartTime ≤ ls.started_at) &&
      (ls.status == "success" || ls.status == "failed")

/-- Requests issued while the timeout recovery runs, with the number of
poll iterations of checkSyncCompletion recorded separately. -/
structure PollTrace where
  polls : Nat
  reqs : List Req
deriving DecidableEq, Repr

/-- checkSyncCompletion of src/unnamed/part_004 lines 109-156: each
invocation fetches /sync/status once; on detecting our finished sync, or
on a fetch error, or once pollAttempts reaches maxPollAttempts, it does a
final loadSyncStatus (one more status GET) and stops; otherwise it
schedules itself again pollIntervalMs later with the counter incremented.
The response of the k-th poll is resp k, none meaning the fetch threw. -/
def checkSyncCompletion (resp : Nat → Option SyncStatusData)
    (syncStartTime : Nat) (a : Nat) : PollTrace :=
  match resp a with
  | none => { polls := 1, reqs := [Req.getStatus, Req.getStatus] }
  | some d =>
    if finishedOurSync syncStartTime d then
      { polls := 1, reqs := [Req.getStatus, Req.getStatus] }
    else if h : a + 1 < maxPollAttempts then
      let t := checkSyncCompletion resp syncStartTime (a + 1)
      { polls := t.polls + 1, reqs := Req.getStatus :: t.reqs }
    else
      { polls := 1, reqs := [Req.getStatus, Req.getStatus] }
termination_by maxPollAttempts - a
decreasing_by omega

/-- The whole timeout recovery path of handleManualSync (lines 92-160):
after a POST /sync/google-sheets timeout it only starts the polling loop
at attempt counter 0; every request it issues from then on comes from
checkSyncCompletion. -/
def timeoutRecoveryTrace (resp : Nat → Option SyncStatusData)
    (syncStartTime : Nat) : PollTrace :=
  checkSyncCompletion resp syncStartTime 0

/-- Modelled from the spec: the backend sync service is absent from the
source tree.  Trigger kind of a run, scheduled or manual (spec section 3,
SyncRun). -/
inductive TriggerKind where
  | scheduled
  | manual
deriving DecidableEq, BEq, Repr

/-- Modelled from the spec: a SourceRow of the external tabular source
(spec sections 3 and 17.2 of the context document): position marker,
source-native timestamp, submitter email, hall, room, category,
description and an optional media reference.  Optional required fields
are carried as Option to express missing values. -/
structure SourceRow where
  position : Nat
  timestamp : String
  submitter : String
  hall : Option String
  roomNumber : Option String
  category : Option String
  description : Option String
  mediaRef : Option String
deriving DecidableEq, Repr

/-- Modelled from the spec: IngestKeyBuilder.key derives the idempotency
key from stable row content, submitter identity plus source timestamp
(spec section 3; context document 17.2: duplicates are detected by
checking timestamp + email), never from the row position. -/
def ingestKey (r : SourceRow) : String :=
  r.submitter ++ "|" ++ r.timestamp

/-- Modelled from the spec: a validated candidate record (spec 4.3). -/
structure Candidate where
  key : String
  submitter : String
  hall : String
  category : String
  description : String
  mediaRef : Option String
deriving DecidableEq, Repr

/-- Modelled from the spec: RowValidator.validate (spec 4.3) enforces the
required fields submitter identity, location and category; the optional
description is defaulted, not rejected. -/
def validate (r : SourceRow) : Option Candidate :=
  match r.hall, r.category with
  | some h, some c =>
    if r.submitter = "" then none
    else
      some { key := ingestKey r, submitter := r.submitter, hall := h,
             category := c, description := r.description.getD "",
             mediaRef := r.mediaRef }
  | _, _ => none

/-- Modelled from the spec: MediaAsset state of an IssueRecord (spec 3),
absent, pending with the source reference, or present with the durable
URL. -/
inductive MediaState where
  | absent
  | pending (ref : String)
  | present (url : String)
deriving DecidableEq, Repr

/-- Modelled from the spec: the persisted IssueRecord (spec 3), keyed by
its IngestKey. -/
structure IssueRecord where
  key : String
  hall : String
  category : String
  description : String
  media : MediaState
deriving DecidableEq, Repr

/-- Modelled from the spec: a RetryTicket of the RetryLedger (spec 3,
4.5): the original media reference, an attempt counter, and a terminal
flag marking permanently failed tickets that are excluded from automatic
retries but retained. -/
structure RetryTicket where
  key : String
  mediaRef : String
  attempts : Nat
  permanentFail : Bool
deriving DecidableEq, Repr

/-- Modelled from the spec: outcome of one MediaFetcher/MediaUploader
attempt for a media reference (spec 4.5). -/
inductive MediaResult where
  | ok (url : String)
  | transientErr
  | permanentErr
deriving DecidableEq, Repr

/-- Modelled from the spec: a finalized SyncRun record (spec 3). -/
structure SyncRun where
  runId : Nat
  kind : TriggerKind
  startedAt : Nat
  completedAt : Option Nat
  status : RunStatus
  rowsChecked : Nat
  rowsCreated : Nat
  rowsSkipped : Nat
  mediaUploaded : Nat
  mediaRetryQueued : Nat
  errors : List String
deriving DecidableEq, Repr

/-- Modelled from the spec: the durable state of the engine: the IssueRecord
store, the RetryLedger (oldest ticket first), the HighWaterMark, the
append-only run history (most recent first) and the run lock. -/
structure EngineState where
  records : List IssueRecord
  tickets : List RetryTicket
  mark : Nat
  history : List SyncRun
  active : Bool
deriving DecidableEq, Repr

/-- The IngestKeys currently present in the store. -/
def EngineState.keys (st : EngineState) : List String :=
  st.records.map (·.key)

/-- Modelled from the spec: SourceReader.readSince fetches the rows newer
than the high-water mark (spec 4.2). -/
def readSince (mark : Nat) (source : List SourceRow) : List SourceRow :=
  source.filter (fun r => decide (mark < r.position))

/-- Modelled from the spec: mutable accumulator of one run over new rows:
store, ledger, mark and the aggregate counters of the SyncRun. -/
structure RunAcc where
  records : List IssueRecord
  tickets : List RetryTicket
  mark : Nat
  checked : Nat
  created : Nat
  skipped : Nat
  uploaded : Nat
  retryQueued : Nat
  errors : List String
deriving DecidableEq, Repr

/-- Set the MediaAsset of the record with the given key to present. -/
def setMediaPresent (recs : List IssueRecord) (k : String) (url : String) :
    List IssueRecord :=
  recs.map fun r =>
    if r.key = k then { r with media := MediaState.present url } else r

/-- Modelled from the spec: the record persisted for a candidate; its
MediaAsset starts pending when the row references media, absent
otherwise (spec 3, MediaAsset). -/
def mkRecord (c : Candidate) : IssueRecord :=
  { key := c.key, hall := c.hall, category := c.category,
    description := c.description,
    media := match c.mediaRef with
      | some ref => MediaState.pending ref
      | none => MediaState.absent }

/-- Modelled from the spec: the durable persistence step of one row
(spec 4.4 and the HighWaterMark rule of spec 3): in one step it inserts
the IssueRecord, enqueues the pending RetryTicket when the row references
media, and advances the high-water mark — so a crash right after this
step leaves a ticket rather than re-reading the row, and a crash before
it leaves the mark untouched. -/
def persistPhase (acc : RunAcc) (c : Candidate) (pos : Nat) : RunAcc :=
  { acc with
      records := acc.records ++ [mkRecord c],
      tickets := acc.tickets ++
        (match c.mediaRef with
          | some ref =>
            [{ key := c.key, mediaRef := ref, attempts := 0,
               permanentFail := false }]
          | none => []),
      created := acc.created + 1,
      mark := max acc.mark pos }

/-- Remove the ticket carrying the given key (on upload success the
RetryTicket, if any, is deleted, spec 4.5). -/
def removeTicket (ts : List RetryTicket) (k : String) : List RetryTicket :=
  ts.filter (fun t => decide (t.key ≠ k))

/-- Increment the attempt counter of the ticket with the given key. -/
def bumpTicket (ts : List RetryTicket) (k : String) : List RetryTicket :=
  ts.map fun t =>
    if t.key = k then { t with attempts := t.attempts + 1 } else t

/-- Mark the ticket with the given key permanently failed, retained but
excluded from future automatic retries (spec 4.5). -/
def markTicketPermanent (ts : List RetryTicket) (k : String) :
    List RetryTicket :=
  ts.map fun t =>
    if t.key = k then
      { t with attempts := t.attempts + 1, permanentFail := true }
    else t

/-- Modelled from the spec: the best-effort media step for one freshly
persisted row (spec 4.5): on success the MediaAsset becomes present and
the ticket is deleted; on a transient error the counter of the ticket is
bumped and the row is counted for retry; on a permanent error the ticket
is marked terminal and the failure surfaces in the error list of the run.
The environment env gives the outcome per media reference. -/
def mediaPhase (env : String → MediaResult) (acc : RunAcc) (c : Candidate) :
    RunAcc :=
  match c.mediaRef with
  | none => acc
  | some ref =>
    match env ref with
    | MediaResult.ok url =>
      { acc with
          records := setMediaPresent acc.records c.key url,
          tickets := removeTicket acc.tickets c.key,
          uploaded := acc.uploaded + 1 }
    | MediaResult.transientErr =>
      { acc with
          tickets := bumpTicket acc.tickets c.key,
          retryQueued := acc.retryQueued + 1 }
    | MediaResult.permanentErr =>
      { acc with
          tickets := markTicketPermanent acc.tickets c.key,
          errors := acc.errors ++ ["media permanently failed: " ++ ref] }

/-- Modelled from the spec: one row of the pipeline (spec 2, 4.3, 4.4,
section 7): a row failing validation is skipped, logged, and the mark
still advances past it; a row whose key already exists is a silent
skipped no-op (the mark advances too); otherwise the row is persisted
and its media attempted, a media failure never failing the row. -/
def processRow (env : String → MediaResult) (acc : RunAcc) (r : SourceRow) :
    RunAcc :=
  let acc := { acc with checked := acc.checked + 1 }
  match validate r with
  | none =>
    { acc with
        skipped := acc.skipped + 1,
        errors := acc.errors ++
          ["validation failed at row " ++ toString r.position],
        mark := max acc.mark r.position }
  | some c =>
    if acc.records.any (fun rec => rec.key == c.key) then
      { acc with
          skipped := acc.skipped + 1,
          mark := max acc.mark r.position }
    else
      mediaPhase env (persistPhase acc c r.position) c

/-- All new rows of a run, in source order. -/
def processRows (env : String → MediaResult) (acc : RunAcc)
    (rows : List SourceRow) : RunAcc :=
  rows.foldl (processRow env) acc

/-- Accumulator of the RetryLedger drain that opens every run. -/
structure DrainAcc where
  records : List IssueRecord
  tickets : List RetryTicket
  attempted : List String
  uploaded : Nat
  requeued : Nat
  errors : List String
deriving DecidableEq, Repr

/-- Modelled from the spec: one RetryTicket of the drain (spec 4.1, 4.5,
section 7): permanently failed tickets are skipped but retained; others
are attempted: success uploads the media and drops the ticket, a
transient error bumps the counter and requeues the ticket unless the
configured maximum attempt count M is reached, in which case (as on a
permanent error) the ticket is retained marked terminal and the failure
surfaces in the error list of the run. -/
def drainStep (env : String → MediaResult) (M : Nat) (acc : DrainAcc)
    (t : RetryTicket) : DrainAcc :=
  if t.permanentFail then
    { acc with tickets := acc.tickets ++ [t] }
  else
    let acc := { acc with attempted := acc.attempted ++ [t.key] }
    match env t.mediaRef with
    | MediaResult.ok url =>
      { acc with
          records := setMediaPresent acc.records t.key url,
          uploaded := acc.uploaded + 1 }
    | MediaResult.transientErr =>
      if M ≤ t.attempts + 1 then
        { acc with
            tickets := acc.tickets ++
              [{ t with attempts := t.attempts + 1, permanentFail := true }],
            errors := acc.errors ++
              ["media permanently failed: " ++ t.mediaRef] }
      else
        { acc with
            tickets := acc.tickets ++ [{ t with attempts := t.attempts + 1 }],
            requeued := acc.requeued + 1 }
    | MediaResult.permanentErr =>
      { acc with
          tickets := acc.tickets ++
            [{ t with attempts := t.attempts + 1, permanentFail := true }],
          errors := acc.errors ++
            ["media permanently failed: " ++ t.mediaRef] }

/-- Modelled from the spec: drain the whole RetryLedger, oldest ticket
first, before any new rows are read (spec 4.1). -/
def drainTickets (env : String → MediaResult) (M : Nat)
    (records : List IssueRecord) (tickets : List RetryTicket) : DrainAcc :=
  tickets.foldl (drainStep env M)
    { records := records, tickets := [], attempted := [],
      uploaded := 0, requeued := 0, errors := [] }

/-- Modelled from the spec: one full pipeline execution (spec 4.1 and
section 7).  A source window of none is SourceUnavailable: the whole run
fails and neither the mark, the store nor the ledger moves.  Otherwise
the run first drains the RetryLedger, then reads the rows past the
high-water mark and processes them in order; the run always finalizes
with status success, media failures never aborting it.  The pair holds
the finalized SyncRun and the state after the run. -/
def runResult (env : String → MediaResult) (M : Nat) (k : TriggerKind)
    (runId : Nat) (now : Nat) (source : Option (List SourceRow))
    (st : EngineState) : SyncRun × EngineState :=
  match source with
  | none =>
    let run : SyncRun :=
      { runId := runId, kind := k, startedAt := now, completedAt := some now,
        status := RunStatus.failed, rowsChecked := 0, rowsCreated := 0,
        rowsSkipped := 0, mediaUploaded := 0, mediaRetryQueued := 0,
        errors := ["source unavailable"] }
    (run, { st with history := run :: st.history })
  | some rows =>
    let d := drainTickets env M st.records st.tickets
    let acc := processRows env
      { records := d.records, tickets := d.tickets, mark := st.mark,
        checked := 0, created := 0, skipped := 0, uploaded := 0,
        retryQueued := 0, errors := [] }
      (readSince st.mark rows)
    let run : SyncRun :=
      { runId := runId, kind := k, startedAt := now, completedAt := some now,
        status := RunStatus.success, rowsChecked := acc.checked,
        rowsCreated := acc.created, rowsSkipped := acc.skipped,
        mediaUploaded := d.uploaded + acc.uploaded,
        mediaRetryQueued := d.requeued + acc.retryQueued,
        errors := d.errors ++ acc.errors }
    (run, { records := acc.records, tickets := acc.tickets, mark := acc.mark,
            history := run :: st.history, active := st.active })

/-- The finalized SyncRun of one pipeline execution. -/
def runSummary (env : String → MediaResult) (M : Nat) (k : TriggerKind)
    (runId : Nat) (now : Nat) (source : Option (List SourceRow))
    (st : EngineState) : SyncRun :=
  (runResult env M k runId now source st).1

/-- The engine state after one pipeline execution. -/
def runPipeline (env : String → MediaResult) (M : Nat) (k : TriggerKind)
    (runId : Nat) (now : Nat) (source : Option (List SourceRow))
    (st : EngineState) : EngineState :=
  (runResult env M k runId now source st).2

/-- Modelled from the spec: the rejection a trigger gets while a run is
active (spec 4.1). -/
inductive TriggerError where
  | alreadyRunning
deriving DecidableEq, Repr

/-- Modelled from the spec: SyncOrchestrator.trigger (spec 4.1): when a
run is already active the call fails fast with AlreadyRunning and touches
nothing; otherwise the pipeline runs and its summary is returned. -/
def trigger (env : String → MediaResult) (M : Nat) (k : TriggerKind)
    (runId : Nat) (now : Nat) (source : Option (List SourceRow))
    (st : EngineState) : Except TriggerError SyncRun × EngineState :=
  if st.active then
    (Except.error TriggerError.alreadyRunning, st)
  else
    (Except.ok (runSummary env M k runId now source st),
     runPipeline env M k runId now source st)

/-- Modelled from the spec: the payload of GET /sync/status (spec 6):
last_sync is the most recent run, last_failed_sync the most recent failed
run, recent_syncs the history limited to the requested depth, most
recent first (spec 4.6, StatusStore). -/
structure SyncStatusResp where
  last_sync : Option SyncRun
  last_failed_sync : Option SyncRun
  recent_syncs : List SyncRun
deriving DecidableEq, Repr

/-- Modelled from the spec: the GET /sync/status endpoint over the
StatusStore queries of spec 4.6. -/
def getSyncStatus (limit : Nat) (st : EngineState) : SyncStatusResp :=
  { last_sync := st.history.head?,
    last_failed_sync :=
      (st.history.filter (fun r => decide (r.status = RunStatus.failed))).head?,
    recent_syncs := st.history.take limit }

/-- History is ordered most recent first by start time. -/
def historyOrdered (st : EngineState) : Prop :=
  st.history.Pairwise (fun a b => b.startedAt ≤ a.startedAt)

/-- Modelled from the spec: the lock state machine of the orchestrator
(spec 5): the lock flag together with the run history statuses, most
recent first.  The in-progress SyncRun record is created together with
lock acquisition and finalized together with lock release. -/
structure OrchState where
  lockHeld : Bool
  runs : List RunStatus
deriving DecidableEq, Repr

/-- In-progress runs recorded in an orchestrator state. -/
def countInProg (l : List RunStatus) : Nat :=
  (l.filter (fun r => decide (r = RunStatus.inProgress))).length

/-- Modelled from the spec: lock acquisition creates the in-progress
SyncRun visible immediately (spec 4.1). -/
def beginRun (s : OrchState) : OrchState :=
  { lockHeld := true, runs := RunStatus.inProgress :: s.runs }

/-- Modelled from the spec: finalization writes the terminal status of
the current run and releases the lock in the same step (spec 4.1). -/
def endRun (term : RunStatus) (s : OrchState) : OrchState :=
  { lockHeld := false,
    runs := match s.runs with
      | [] => []
      | _ :: rest => term :: rest }

/-- Modelled from the spec: a trigger converging on the single run lock
(spec 5): it starts a run when the lock is free and is rejected,
changing nothing, when a run is active.  The Bool reports whether the
trigger executed. -/
def triggerStep (s : OrchState) : Bool × OrchState :=
  if s.lockHeld then (false, s) else (true, beginRun s)

/-- Modelled from the spec: the transitions of the orchestrator: a
trigger starting a run while the lock is free, a run finishing with a
terminal status, or a trigger rejected while the lock is held. -/
inductive OrchStep : OrchState → OrchState → Prop where
  | start (s : OrchState) (h : s.lockHeld = false) : OrchStep s (beginRun s)
  | finish (s : OrchState) (term : RunStatus) (h : s.lockHeld = true)
      (hterm : term ≠ RunStatus.inProgress) : OrchStep s (endRun term s)
  | reject (s : OrchState) (h : s.lockHeld = true) : OrchStep s s

/-- The initial orchestrator state: lock free, empty history. -/
def orchInit : OrchState := { lockHeld := false, runs := [] }

/-- States reachable from the initial orchestrator state. -/
def OrchReachable (s : OrchState) : Prop :=
  Relation.ReflTransGen OrchStep orchInit s

/-- The lock invariant: when the lock is held exactly the head run is in
progress, and no run is in progress otherwise. -/
def OrchInv (s : OrchState) : Prop :=
  match s.lockHeld with
  | true =>
    ∃ rest, s.runs = RunStatus.inProgress :: rest ∧ countInProg rest = 0
  | false => countInProg s.runs = 0

/-! ### Helper lemmas -/

lemma keys_setMediaPresent (recs : List IssueRecord) (k url : String) :
    (setMediaPresent recs k url).map (·.key) = recs.map (·.key) := by
  unfold setMediaPresent
  rw [List.map_map]
  refine List.map_congr_left ?_
  intro r _
  by_cases h : r.key = k <;> simp [h]

lemma mediaPhase_records_keys (env : String → MediaResult) (acc : RunAcc)
    (c : Candidate) :
    (mediaPhase env acc c).records.map (·.key) = acc.records.map (·.key) := by
  unfold mediaPhase
  cases c.mediaRef with
  | none => rfl
  | some ref => cases h : env ref <;> simp [h, keys_setMediaPresent]

lemma mediaPhase_mark (env : String → MediaResult) (acc : RunAcc)
    (c : Candidate) : (mediaPhase env acc c).mark = acc.mark := by
  unfold mediaPhase
  cases c.mediaRef with
  | none => rfl
  | some ref => cases h : env ref <;> simp [h]

lemma mediaPhase_counts (env : String → MediaResult) (acc : RunAcc)
    (c : Candidate) :
    (mediaPhase env acc c).checked = acc.checked ∧
      (mediaPhase env acc c).created = acc.created ∧
      (mediaPhase env acc c).skipped = acc.skipped := by
  unfold mediaPhase
  cases c.mediaRef with
  | none => exact ⟨rfl, rfl, rfl⟩
  | some ref => cases h : env ref <;> simp [h]

lemma persistPhase_keys (acc : RunAcc) (c : Candidate) (pos : Nat) :
    (persistPhase acc c pos).records.map (·.key)
      = acc.records.map (·.key) ++ [c.key] := by
  simp [persistPhase, mkRecord]

lemma processRow_mark (env : String → MediaResult) (acc : RunAcc)
    (r : SourceRow) :
    (processRow env acc r).mark = max acc.mark r.position := by
  unfold processRow
  cases hv : validate r with
  | none => rfl
  | some c =>
    by_cases hdup : ({ acc with checked := acc.checked + 1 } :
        RunAcc).records.any (fun rec => rec.key == c.key)
    · simp [hdup]
    · simp only [Bool.not_eq_true] at hdup
      simp [hdup, mediaPhase_mark, persistPhase]

lemma processRow_checked (env : String → MediaResult) (acc : RunAcc)
    (r : SourceRow) :
    (processRow env acc r).checked = acc.checked + 1 := by
  unfold processRow
  cases hv : validate r with
  | none => rfl
  | some c =>
    by_cases hdup : ({ acc with checked := acc.checked + 1 } :
        RunAcc).records.any (fun rec => rec.key == c.key)
    · simp [hdup]
    · simp only [Bool.not_eq_true] at hdup
      simp [hdup, (mediaPhase_counts env _ c).1, persistPhase]

lemma processRows_checked (env : String → MediaResult) :
    ∀ (rows : List SourceRow) (acc : RunAcc),
      (processRows env acc rows).checked = acc.checked + rows.length := by
  intro rows
  induction rows with
  | nil => intro acc; simp [processRows]
  | cons r rows ih =>
    intro acc
    show (processRows env (processRow env acc r) rows).checked = _
    rw [ih, processRow_checked]
    simp [Nat.add_assoc, Nat.add_comm 1 rows.length]

lemma processRows_mark (env : String → MediaResult) :
    ∀ (rows : List SourceRow) (acc : RunAcc),
      acc.mark ≤ (processRows env acc rows).mark ∧
        ∀ r ∈ rows, r.position ≤ (processRows env acc rows).mark := by
  intro rows
  induction rows with
  | nil => intro acc; exact ⟨Nat.le_refl _, by simp⟩
  | cons r rows ih =>
    intro acc
    have hstep : (processRow env acc r).mark = max acc.mark r.position :=
      processRow_mark env acc r
    have htail := ih (processRow env acc r)
    have hle : acc.mark ≤ (processRow env acc r).mark := by
      rw [hstep]; exact Nat.le_max_left _ _
    have hpos : r.position ≤ (processRow env acc r).mark := by
      rw [hstep]; exact Nat.le_max_right _ _
    refine ⟨Nat.le_trans hle htail.1, ?_⟩
    intro s hs
    rcases List.mem_cons.mp hs with hs | hs
    · subst hs; exact Nat.le_trans hpos htail.1
    · exact htail.2 s hs

lemma any_key_eq_false_not_mem {recs : List IssueRecord} {k : String}
    (h : recs.any (fun rec => rec.key == k) = false) :
    k ∉ recs.map (·.key) := by
  intro hmem
  rcases List.mem_map.mp hmem with ⟨rec, hrec, hkey⟩
  have : recs.any (fun rec => rec.key == k) = true :=
    List.any_eq_true.mpr ⟨rec, hrec, by simp [hkey]⟩
  rw [h] at this
  exact Bool.false_ne_true this

lemma processRow_nodup (env : String → MediaResult) (acc : RunAcc)
    (r : SourceRow) (h : (acc.records.map (·.key)).Nodup) :
    ((processRow env acc r).records.map (·.key)).Nodup := by
  unfold processRow
  cases hv : validate r with
  | none => simpa using h
  | some c =>
    by_cases hdup : ({ acc with checked := acc.checked + 1 } :
        RunAcc).records.any (fun rec => rec.key == c.key)
    · simpa [hdup] using h
    · simp only [Bool.not_eq_true] at hdup
      have hnot : c.key ∉ acc.records.map (·.key) :=
        any_key_eq_false_not_mem hdup
      simp only [hdup, if_neg, Bool.false_eq_true, not_false_eq_true,
        if_false, mediaPhase_records_keys, persistPhase_keys]
      simp [List.nodup_append, h, List.disjoint_singleton, hnot]

lemma processRows_nodup (env : String → MediaResult) :
    ∀ (rows : List SourceRow) (acc : RunAcc),
      (acc.records.map (·.key)).Nodup →
        ((processRows env acc rows).records.map (·.key)).Nodup := by
  intro rows
  induction rows with
  | nil => intro acc h; exact h
  | cons r rows ih =>
    intro acc h
    exact ih (processRow env acc r) (processRow_nodup env acc r h)

lemma processRow_invalid (env : String → MediaResult) (acc : RunAcc)
    (r : SourceRow) (hv : validate r = none) :
    (processRow env acc r).records = acc.records ∧
      (processRow env acc r).tickets = acc.tickets ∧
      (processRow env acc r).created = acc.created ∧
      (processRow env acc r).skipped = acc.skipped + 1 ∧
      (processRow env acc r).mark = max acc.mark r.position := by
  unfold processRow
  simp [hv]

lemma processRow_dup (env : String → MediaResult) (acc : RunAcc)
    (r : SourceRow) (c : Candidate) (hv : validate r = some c)
    (hmem : c.key ∈ acc.records.map (·.key)) :
    (processRow env acc r).records = acc.records ∧
      (processRow env acc r).tickets = acc.tickets ∧
      (processRow env acc r).created = acc.created ∧
      (processRow env acc r).skipped = acc.skipped + 1 := by
  have hany : acc.records.any (fun rec => rec.key == c.key) = true := by
    rcases List.mem_map.mp hmem with ⟨rec, hrec, hkey⟩
    exact List.any_eq_true.mpr ⟨rec, hrec, by simp [hkey]⟩
  unfold processRow
  simp [hv, hany]

lemma processRows_all_dup (env : String → MediaResult) :
    ∀ (rows : List SourceRow) (acc : RunAcc),
      (∀ r ∈ rows, ∀ c, validate r = some c →
        c.key ∈ acc.records.map (·.key)) →
      (processRows env acc rows).records = acc.records ∧
        (processRows env acc rows).tickets = acc.tickets ∧
        (processRows env acc rows).created = acc.created ∧
        (processRows env acc rows).skipped = acc.skipped + rows.length := by
  intro rows
  induction rows with
  | nil => intro acc _; simp [processRows]
  | cons r rows ih =>
    intro acc hall
    have hstep : (processRow env acc r).records = acc.records ∧
        (processRow env acc r).tickets = acc.tickets ∧
        (processRow env acc r).created = acc.created ∧
        (processRow env acc r).skipped = acc.skipped + 1 := by
      cases hv : validate r with
      | none =>
        have h := processRow_invalid env acc r hv
        exact ⟨h.1, h.2.1, h.2.2.1, h.2.2.2.1⟩
      | some c =>
        exact processRow_dup env acc r c hv
          (hall r (List.mem_cons_self r rows) c hv)
    have htail := ih (processRow env acc r) (by
      intro s hs c hv
      rw [hstep.1]
      exact hall s (List.mem_cons_of_mem r hs) c hv)
    have hcons : processRows env acc (r :: rows)
        = processRows env (processRow env acc r) rows := rfl
    rw [hcons]
    refine ⟨htail.1.trans hstep.1, htail.2.1.trans hstep.2.1,
      htail.2.2.1.trans hstep.2.2.1, ?_⟩
    rw [htail.2.2.2, hstep.2.2.2]
    simp [List.length_cons, Nat.add_assoc, Nat.add_comm 1 rows.length]

lemma drainStep_attempted (env : String → MediaResult) (M : Nat)
    (a : DrainAcc) (t : RetryTicket) :
    (drainStep env M a t).attempted
      = a.attempted ++ (if t.permanentFail then [] else [t.key]) := by
  unfold drainStep
  by_cases hp : t.permanentFail
  · simp [hp]
  · simp only [hp, Bool.false_eq_true, if_false]
    cases h : env t.mediaRef with
    | ok url => simp [h]
    | transientErr =>
      by_cases hM : M ≤ t.attempts + 1 <;> simp [h, hM]
    | permanentErr => simp [h]

lemma drainStep_records_keys (env : String → MediaResult) (M : Nat)
    (a : DrainAcc) (t : RetryTicket) :
    (drainStep env M a t).records.map (·.key) = a.records.map (·.key) := by
  unfold drainStep
  by_cases hp : t.permanentFail
  · simp [hp]
  · simp only [hp, Bool.false_eq_true, if_false]
    cases h : env t.mediaRef with
    | ok url => simp [h, keys_setMediaPresent]
    | transientErr =>
      by_cases hM : M ≤ t.attempts + 1 <;> simp [h, hM]
    | permanentErr => simp [h]

lemma drain_foldl_attempted (env : String → MediaResult) (M : Nat) :
    ∀ (ts : List RetryTicket) (a : DrainAcc),
      (ts.foldl (drainStep env M) a).attempted
        = a.attempted ++ (ts.filter (fun t => !t.permanentFail)).map (·.key) := by
  intro ts
  induction ts with
  | nil => intro a; simp
  | cons t ts ih =>
    intro a
    rw [List.foldl_cons, ih, drainStep_attempted]
    by_cases hp : t.permanentFail <;> simp [hp, List.filter_cons]

lemma drain_foldl_records_keys (env : String → MediaResult) (M : Nat) :
    ∀ (ts : List RetryTicket) (a : DrainAcc),
      (ts.foldl (drainStep env M) a).records.map (·.key)
        = a.records.map (·.key) := by
  intro ts
  induction ts with
  | nil => intro a; rfl
  | cons t ts ih =>
    intro a
    rw [List.foldl_cons, ih, drainStep_records_keys]

lemma drainTickets_attempted (env : String → MediaResult) (M : Nat)
    (records : List IssueRecord) (tickets : List RetryTicket) :
    (drainTickets env M records tickets).attempted
      = (tickets.filter (fun t => !t.permanentFail)).map (·.key) := by
  unfold drainTickets
  rw [drain_foldl_attempted]
  rfl

lemma drainTickets_records_keys (env : String → MediaResult) (M : Nat)
    (records : List IssueRecord) (tickets : List RetryTicket) :
    (drainTickets env M records tickets).records.map (·.key)
      = records.map (·.key) := by
  unfold drainTickets
  rw [drain_foldl_records_keys]

lemma runPipeline_some_nodup (env : String → MediaResult) (M : Nat)
    (k : TriggerKind) (i n : Nat) (rows : List SourceRow) (st : EngineState)
    (h : st.keys.Nodup) :
    (runPipeline env M k i n (some rows) st).keys.Nodup := by
  simp only [runPipeline, runResult, EngineState.keys]
  apply processRows_nodup
  show ((drainTickets env M st.records st.tickets).records.map (·.key)).Nodup
  rw [drainTickets_records_keys]
  exact h

lemma runPipeline_mark_ge (env : String → MediaResult) (M : Nat)
    (k : TriggerKind) (i n : Nat) (rows : List SourceRow) (st : EngineState) :
    ∀ r ∈ rows, r.position ≤ (runPipeline env M k i n (some rows) st).mark := by
  intro r hr
  simp only [runPipeline, runResult]
  by_cases hpos : st.mark < r.position
  · have hmem : r ∈ readSince st.mark rows := by
      simp [readSince, List.mem_filter, hr, hpos]
    exact (processRows_mark env _ _).2 r hmem
  · push_neg at hpos
    refine Nat.le_trans hpos ?_
    exact (processRows_mark env (readSince st.mark rows)
      { records := (drainTickets env M st.records st.tickets).records,
        tickets := (drainTickets env M st.records st.tickets).tickets,
        mark := st.mark, checked := 0, created := 0, skipped := 0,
        uploaded := 0, retryQueued := 0, errors := [] }).1

lemma readSince_after_run (env : String → MediaResult) (M : Nat)
    (k : TriggerKind) (i n : Nat) (rows : List SourceRow) (st : EngineState) :
    readSince (runPipeline env M k i n (some rows) st).mark rows = [] := by
  apply List.filter_eq_nil_iff.mpr
  intro r hr
  simp only [decide_eq_true_eq, Nat.not_lt]
  exact runPipeline_mark_ge env M k i n rows st r hr

lemma run_twice (env env2 : String → MediaResult) (M M2 : Nat)
    (k k2 : TriggerKind) (i i2 n n2 : Nat) (rows : List SourceRow)
    (st : EngineState) :
    (runSummary env2 M2 k2 i2 n2 (some rows)
        (runPipeline env M k i n (some rows) st)).rowsChecked = 0 ∧
      (runSummary env2 M2 k2 i2 n2 (some rows)
        (runPipeline env M k i n (some rows) st)).rowsCreated = 0 ∧
      (runSummary env2 M2 k2 i2 n2 (some rows)
        (runPipeline env M k i n (some rows) st)).rowsSkipped = 0 ∧
      (runPipeline env2 M2 k2 i2 n2 (some rows)
          (runPipeline env M k i n (some rows) st)).keys
        = (runPipeline env M k i n (some rows) st).keys := by
  have hempty : readSince (runPipeline env M k i n (some rows) st).mark rows
      = [] := readSince_after_run env M k i n rows st
  set st1 := runPipeline env M k i n (some rows) st with hst1
  constructor
  · simp only [runSummary, runResult, hempty]
    rfl
  constructor
  · simp only [runSummary, runResult, hempty]
    rfl
  constructor
  · simp only [runSummary, runResult, hempty]
    rfl
  · simp only [runPipeline, runResult, hempty, EngineState.keys]
    show (drainTickets env2 M2 st1.records st1.tickets).records.map (·.key)
        = st1.records.map (·.key)
    exact drainTickets_records_keys env2 M2 st1.records st1.tickets


lemma countInProg_nil : countInProg [] = 0 := rfl

lemma countInProg_cons_ne (r : RunStatus) (l : List RunStatus)
    (h : r ≠ RunStatus.inProgress) : countInProg (r :: l) = countInProg l := by
  simp [countInProg, List.filter_cons, h]

lemma countInProg_cons_inProg (l : List RunStatus) :
    countInProg (RunStatus.inProgress :: l) = countInProg l + 1 := by
  simp [countInProg, List.filter_cons]

lemma orchStep_inv {s s2 : OrchState} (h : OrchInv s)
    (hstep : OrchStep s s2) : OrchInv s2 := by
  cases hstep with
  | start hl =>
    simp only [OrchInv, hl] at h
    simp only [OrchInv, beginRun]
    exact ⟨s.runs, rfl, h⟩
  | finish term hl hterm =>
    simp only [OrchInv, hl] at h
    obtain ⟨rest, hruns, hc⟩ := h
    simp only [OrchInv, endRun, hruns]
    rw [countInProg_cons_ne term rest hterm]
    exact hc
  | reject hl => exact h

lemma orchReachable_inv {s : OrchState} (h : OrchReachable s) : OrchInv s := by
  induction h with
  | refl => simp [OrchInv, orchInit, countInProg]
  | tail h1 hstep ih => exact orchStep_inv ih hstep

lemma orchInv_le_one {s : OrchState} (h : OrchInv s) :
    countInProg s.runs ≤ 1 := by
  cases hl : s.lockHeld with
  | false =>
    simp only [OrchInv, hl] at h
    omega
  | true =>
    simp only [OrchInv, hl] at h
    obtain ⟨rest, hruns, hc⟩ := h
    rw [hruns, countInProg_cons_inProg, hc]

lemma checkSyncCompletion_none (resp : Nat → Option SyncStatusData)
    (t a : Nat) (hr : resp a = none) :
    checkSyncCompletion resp t a
      = { polls := 1, reqs := [Req.getStatus, Req.getStatus] } := by
  rw [checkSyncCompletion, hr]

lemma checkSyncCompletion_found (resp : Nat → Option SyncStatusData)
    (t a : Nat) (d : SyncStatusData) (hr : resp a = some d)
    (hf : finishedOurSync t d = true) :
    checkSyncCompletion resp t a
      = { polls := 1, reqs := [Req.getStatus, Req.getStatus] } := by
  rw [checkSyncCompletion, hr]
  simp [hf]

lemma checkSyncCompletion_cont (resp : Nat → Option SyncStatusData)
    (t a : Nat) (d : SyncStatusData) (hr : resp a = some d)
    (hf : finishedOurSync t d = false) (hlt : a + 1 < maxPollAttempts) :
    checkSyncCompletion resp t a
      = { polls := (checkSyncCompletion resp t (a + 1)).polls + 1,
          reqs := Req.getStatus :: (checkSyncCompletion resp t (a + 1)).reqs } := by
  rw [checkSyncCompletion, hr]
  simp [hf, hlt]

lemma checkSyncCompletion_giveup (resp : Nat → Option SyncStatusData)
    (t a : Nat) (d : SyncStatusData) (hr : resp a = some d)
    (hf : finishedOurSync t d = false) (hlt : ¬(a + 1 < maxPollAttempts)) :
    checkSyncCompletion resp t a
      = { polls := 1, reqs := [Req.getStatus, Req.getStatus] } := by
  rw [checkSyncCompletion, hr]
  simp [hf, hlt]

lemma checkSyncCompletion_bound (resp : Nat → Option SyncStatusData)
    (t : Nat) :
    ∀ (fuel a : Nat), maxPollAttempts ≤ a + fuel →
      (∀ q ∈ (checkSyncCompletion resp t a).reqs, q = Req.getStatus) ∧
      (checkSyncCompletion resp t a).polls + a
        ≤ max maxPollAttempts (a + 1) := by
  intro fuel
  induction fuel with
  | zero =>
    intro a ha
    have hlt : ¬(a + 1 < maxPollAttempts) := by omega
    have hstop : checkSyncCompletion resp t a
        = { polls := 1, reqs := [Req.getStatus, Req.getStatus] } := by
      cases hr : resp a with
      | none => exact checkSyncCompletion_none resp t a hr
      | some d =>
        cases hf : finishedOurSync t d with
        | true => exact checkSyncCompletion_found resp t a d hr hf
        | false => exact checkSyncCompletion_giveup resp t a d hr hf hlt
    rw [hstop]
    refine ⟨?_, by simp; omega⟩
    intro q hq
    simpa using hq
  | succ fuel ih =>
    intro a ha
    cases hr : resp a with
    | none =>
      rw [checkSyncCompletion_none resp t a hr]
      refine ⟨?_, by simp; omega⟩
      intro q hq
      simpa using hq
    | some d =>
      cases hf : finishedOurSync t d with
      | true =>
        rw [checkSyncCompletion_found resp t a d hr hf]
        refine ⟨?_, by simp; omega⟩
        intro q hq
        simpa using hq
      | false =>
        by_cases hlt : a + 1 < maxPollAttempts
        · rw [checkSyncCompletion_cont resp t a d hr hf hlt]
          have h2 := ih (a + 1) (by omega)
          refine ⟨?_, ?_⟩
          · intro q hq
            rcases List.mem_cons.mp hq with hq | hq
            · exact hq
            · exact h2.1 q hq
          · have hle := h2.2
            show (checkSyncCompletion resp t (a + 1)).polls + 1 + a
              ≤ max maxPollAttempts (a + 1)
            omega
        · rw [checkSyncCompletion_giveup resp t a d hr hf hlt]
          refine ⟨?_, by simp; omega⟩
          intro q hq
          simpa using hq

/-! ### Concrete fixtures used by the witnesses -/

/-- A valid source row with media. -/
def rowA : SourceRow :=
  { position := 1, timestamp := "2025-01-01 10:00", submitter := "a@x",
    hall := some "Levi", roomNumber := some "A1",
    category := some "Plumbing", description := some "leak",
    mediaRef := some "imgA" }

/-- A second valid source row with media and no description. -/
def rowB : SourceRow :=
  { position := 2, timestamp := "2025-01-01 11:00", submitter := "b@x",
    hall := some "Levi", roomNumber := some "B2",
    category := some "Electrical", description := none,
    mediaRef := some "imgB" }

/-- A row missing its required fields. -/
def rowBad : SourceRow :=
  { position := 3, timestamp := "2025-01-01 12:00", submitter := "",
    hall := none, roomNumber := none, category := none,
    description := none, mediaRef := none }

/-- A copy of rowA at a different position. -/
def rowA2 : SourceRow := { rowA with position := 7 }

/-- A media environment in which every upload succeeds. -/
def envAllOk : String → MediaResult :=
  fun ref => MediaResult.ok ("url-" ++ ref)

/-- A media environment in which every upload transiently fails. -/
def envAllBad : String → MediaResult :=
  fun _ => MediaResult.transientErr

/-- The empty engine state. -/
def emptyState : EngineState :=
  { records := [], tickets := [], mark := 0, history := [], active := false }

/-- An engine state with a run in flight. -/
def activeState : EngineState :=
  { records := [], tickets := [], mark := 0, history := [], active := true }

/-- The three-row window of the worked example. -/
def rowsW : List SourceRow := [rowA, rowB, rowBad]

/-- State after one run of the worked example, everything uploading. -/
def st1W : EngineState :=
  runPipeline envAllOk 3 TriggerKind.scheduled 1 100 (some rowsW) emptyState

/-- The candidate that validating rowB yields. -/
def candB : Candidate :=
  { key := "b@x|2025-01-01 11:00", submitter := "b@x", hall := "Levi",
    category := "Electrical", description := "", mediaRef := some "imgB" }

/-- An empty run accumulator. -/
def accW : RunAcc :=
  { records := [], tickets := [], mark := 0, checked := 0, created := 0,
    skipped := 0, uploaded := 0, retryQueued := 0, errors := [] }

/-- An empty drain accumulator. -/
def drainAccW : DrainAcc :=
  { records := [], tickets := [], attempted := [], uploaded := 0,
    requeued := 0, errors := [] }

/-- A retry ticket two attempts in. -/
def ticketW : RetryTicket :=
  { key := "k1", mediaRef := "m1", attempts := 2, permanentFail := false }

/-- A permanently failed retry ticket. -/
def ticketP : RetryTicket :=
  { key := "k2", mediaRef := "m2", attempts := 3, permanentFail := true }

/-- A finalized successful run record. -/
def runW1 : SyncRun :=
  { runId := 1, kind := TriggerKind.scheduled, startedAt := 100,
    completedAt := some 110, status := RunStatus.success, rowsChecked := 3,
    rowsCreated := 2, rowsSkipped := 1, mediaUploaded := 1,
    mediaRetryQueued := 1, errors := [] }

/-- A later, failed run record. -/
def runW2 : SyncRun :=
  { runId := 2, kind := TriggerKind.manual, startedAt := 200,
    completedAt := some 210, status := RunStatus.failed, rowsChecked := 0,
    rowsCreated := 0, rowsSkipped := 0, mediaUploaded := 0,
    mediaRetryQueued := 0, errors := ["source unavailable"] }

/-- A state carrying an ordered two-run history. -/
def histState : EngineState :=
  { records := [], tickets := [], mark := 3, history := [runW2, runW1],
    active := false }

/-- A concrete summary as the UI receives it. -/
def summaryW : SyncSummaryJs :=
  { id := 1, sync_type := "manual", started_at := 100,
    completed_at := some 1000, status := "success", rows_processed := 3,
    rows_created := 2, rows_skipped := 1, errors := [] }

/-- A concrete status payload whose last sync has completed. -/
def statusDataW : SyncStatusData :=
  { last_sync := some summaryW, last_failed_sync := none,
    recent_syncs := [summaryW] }

/-- A poll-response schedule on which every fetch throws. -/
def respNoneW : Nat → Option SyncStatusData := fun _ => none

/-! ### Claim theorems -/

/-- C1: re-running the pipeline over the same unchanged source window is
idempotent: the second run creates no IssueRecords and skips every row it
checks, the set of ingested keys is unchanged, at most one IssueRecord
exists per IngestKey (key-uniqueness is preserved by every run), and
ingesting any window whose valid keys are all already present is a
counted no-op on the store. -/
theorem C1_pipeline_idempotent (env env2 : String → MediaResult)
    (M M2 : Nat) (k k2 : TriggerKind) (i i2 n n2 : Nat)
    (rows : List SourceRow) (st : EngineState) (hnd : st.keys.Nodup) :
    (runSummary env2 M2 k2 i2 n2 (some rows)
        (runPipeline env M k i n (some rows) st)).rowsCreated = 0 ∧
    (runSummary env2 M2 k2 i2 n2 (some rows)
        (runPipeline env M k i n (some rows) st)).rowsSkipped
      = (runSummary env2 M2 k2 i2 n2 (some rows)
        (runPipeline env M k i n (some rows) st)).rowsChecked ∧
    (runPipeline env2 M2 k2 i2 n2 (some rows)
        (runPipeline env M k i n (some rows) st)).keys
      = (runPipeline env M k i n (some rows) st).keys ∧
    (runPipeline env M k i n (some rows) st).keys.Nodup ∧
    (∀ rows2 acc, (∀ r ∈ rows2, ∀ c, validate r = some c →
        c.key ∈ acc.records.map (·.key)) →
      (processRows env acc rows2).records = acc.records ∧
      (processRows env acc rows2).created = acc.created ∧
      (processRows env acc rows2).skipped = acc.skipped + rows2.length) := by
  obtain ⟨h1, h2, h3, h4⟩ := run_twice env env2 M M2 k k2 i i2 n n2 rows st
  refine ⟨h2, by rw [h1, h3], h4,
    runPipeline_some_nodup env M k i n rows st hnd, ?_⟩
  intro rows2 acc hall
  have h := processRows_all_dup env rows2 acc hall
  exact ⟨h.1, h.2.2.1, h.2.2.2⟩

/-- C1 witness: the idempotence claim evaluated on the worked three-row
example. -/
theorem C1_pipeline_idempotent_witness :
    emptyState.keys.Nodup ∧
    ((runSummary envAllOk 3 TriggerKind.manual 2 200 (some rowsW)
        st1W).rowsCreated = 0 ∧
      (runSummary envAllOk 3 TriggerKind.manual 2 200 (some rowsW)
        st1W).rowsSkipped
        = (runSummary envAllOk 3 TriggerKind.manual 2 200 (some rowsW)
          st1W).rowsChecked ∧
      (runPipeline envAllOk 3 TriggerKind.manual 2 200 (some rowsW)
          st1W).keys = st1W.keys ∧
      st1W.keys.Nodup ∧
      (∀ rows2 acc, (∀ r ∈ rows2, ∀ c, validate r = some c →
          c.key ∈ acc.records.map (·.key)) →
        (processRows envAllOk acc rows2).records = acc.records ∧
        (processRows envAllOk acc rows2).created = acc.created ∧
        (processRows envAllOk acc rows2).skipped
          = acc.skipped + rows2.length)) :=
  ⟨by decide,
    C1_pipeline_idempotent envAllOk envAllOk 3 3 TriggerKind.scheduled
      TriggerKind.manual 1 2 100 200 rowsW emptyState (by decide)⟩

/-- C2: at every reachable orchestrator state at most one SyncRun is in
progress; a trigger on a lock-free state executes and flips the lock, a
second concurrent trigger is then rejected without changing anything, and
a trigger while the lock is held is always the rejected no-op.  The
accepted trigger is a legal transition of the lock state machine. -/
theorem C2_exclusive_run_lock :
    (∀ s, OrchReachable s → countInProg s.runs ≤ 1) ∧
    (∀ s, s.lockHeld = false →
      (triggerStep s).1 = true ∧
      (triggerStep (triggerStep s).2).1 = false ∧
      (triggerStep (triggerStep s).2).2 = (triggerStep s).2 ∧
      OrchStep s (triggerStep s).2) ∧
    (∀ s, s.lockHeld = true →
      (triggerStep s).1 = false ∧ (triggerStep s).2 = s) := by
  refine ⟨?_, ?_, ?_⟩
  · intro s hs
    exact orchInv_le_one (orchReachable_inv hs)
  · intro s hl
    have h2 : (triggerStep s).2 = beginRun s := by
      simp [triggerStep, hl]
    refine ⟨by simp [triggerStep, hl], ?_, ?_, ?_⟩
    · rw [h2]; simp [triggerStep, beginRun]
    · rw [h2]; simp [triggerStep, beginRun]
    · rw [h2]; exact OrchStep.start s hl
  · intro s hl
    exact ⟨by simp [triggerStep, hl], by simp [triggerStep, hl]⟩

/-- C2 witness: the lock theorem applied at the initial state, which is
reachable and lock-free. -/
theorem C2_exclusive_run_lock_witness :
    countInProg orchInit.runs ≤ 1 ∧
    (triggerStep orchInit).1 = true ∧
    (triggerStep (triggerStep orchInit).2).1 = false ∧
    (triggerStep (triggerStep orchInit).2).2 = (triggerStep orchInit).2 ∧
    OrchStep orchInit (triggerStep orchInit).2 :=
  ⟨C2_exclusive_run_lock.1 orchInit Relation.ReflTransGen.refl,
    C2_exclusive_run_lock.2.1 orchInit rfl⟩

/-- C3: a trigger issued while a run is active fails fast with
AlreadyRunning and leaves the whole engine state, in particular the run
history, the record store, the retry ledger and the high-water mark,
untouched. -/
theorem C3_trigger_rejected_while_active (env : String → MediaResult)
    (M : Nat) (k : TriggerKind) (i n : Nat)
    (source : Option (List SourceRow)) (st : EngineState)
    (h : st.active = true) :
    trigger env M k i n source st
      = (Except.error TriggerError.alreadyRunning, st) ∧
    (trigger env M k i n source st).2.history = st.history ∧
    (trigger env M k i n source st).2.records = st.records ∧
    (trigger env M k i n source st).2.tickets = st.tickets ∧
    (trigger env M k i n source st).2.mark = st.mark := by
  have ht : trigger env M k i n source st
      = (Except.error TriggerError.alreadyRunning, st) := by
    simp [trigger, h]
  exact ⟨ht, by rw [ht], by rw [ht], by rw [ht], by rw [ht]⟩

/-- C3 witness: a manual trigger against a concrete active state. -/
theorem C3_trigger_rejected_while_active_witness :
    trigger envAllOk 3 TriggerKind.manual 1 100 (some rowsW) activeState
      = (Except.error TriggerError.alreadyRunning, activeState) ∧
    (trigger envAllOk 3 TriggerKind.manual 1 100 (some rowsW)
      activeState).2.history = activeState.history ∧
    (trigger envAllOk 3 TriggerKind.manual 1 100 (some rowsW)
      activeState).2.records = activeState.records ∧
    (trigger envAllOk 3 TriggerKind.manual 1 100 (some rowsW)
      activeState).2.tickets = activeState.tickets ∧
    (trigger envAllOk 3 TriggerKind.manual 1 100 (some rowsW)
      activeState).2.mark = activeState.mark :=
  C3_trigger_rejected_while_active envAllOk 3 TriggerKind.manual 1 100
    (some rowsW) activeState rfl

/-- C4: the IngestKey is a pure function of the stable row content: rows
with equal submitter and timestamp get equal keys whatever their position
or how often they are re-read; a validated candidate always carries
exactly that key; processing any sequence of rows, in any order and with
any overlap, preserves key-uniqueness of the store; and re-reading a row
whose key is already present leaves the store unchanged. -/
theorem C4_ingest_key_pure (r s : SourceRow)
    (hsub : r.submitter = s.submitter) (hts : r.timestamp = s.timestamp) :
    ingestKey r = ingestKey s ∧
    (∀ c, validate r = some c → c.key = ingestKey r) ∧
    (∀ env acc rows, (acc.records.map (·.key)).Nodup →
      ((processRows env acc rows).records.map (·.key)).Nodup) ∧
    (∀ env acc c, validate r = some c → c.key ∈ acc.records.map (·.key) →
      (processRow env acc r).records = acc.records) := by
  refine ⟨?_, ?_, ?_, ?_⟩
  · unfold ingestKey
    rw [hsub, hts]
  · intro c h
    unfold validate at h
    split at h
    · split at h
      · simp at h
      · injection h with h
        subst h
        rfl
    · simp at h
  · intro env acc rows hnd
    exact processRows_nodup env rows acc hnd
  · intro env acc c hv hmem
    exact (processRow_dup env acc r c hv hmem).1

/-- C4 witness: rowA and its re-read copy at position 7 share a key, and
re-processing a window containing both keeps the store duplicate-free. -/
theorem C4_ingest_key_pure_witness :
    (rowA.submitter = rowA2.submitter ∧ rowA.timestamp = rowA2.timestamp) ∧
    ingestKey rowA = ingestKey rowA2 :=
  ⟨⟨rfl, rfl⟩,
    (C4_ingest_key_pure rowA rowA2 rfl rfl).1⟩

/-- C5: the high-water mark never moves on a source-level failure (the
run is marked failed and the store is untouched); a row skipped for a
validation error still advances the mark past it; the media step never
moves the mark, so the advance happens entirely in the persistence step,
which in the same durable step stores the IssueRecord and, when the row
references media, the RetryTicket — hence a crash after persistence but
before media upload leaves a ticket and the row, now at or below the
mark, is never re-read. -/
theorem C5_high_water_mark :
    (∀ (env : String → MediaResult) (M : Nat) (k : TriggerKind)
        (i n : Nat) (st : EngineState),
      (runPipeline env M k i n none st).mark = st.mark ∧
      (runPipeline env M k i n none st).records = st.records ∧
      (runSummary env M k i n none st).status = RunStatus.failed) ∧
    (∀ (env : String → MediaResult) (acc : RunAcc) (r : SourceRow),
      validate r = none →
      (processRow env acc r).mark = max acc.mark r.position ∧
      (processRow env acc r).records = acc.records) ∧
    (∀ (env : String → MediaResult) (acc : RunAcc) (c : Candidate),
      (mediaPhase env acc c).mark = acc.mark) ∧
    (∀ (acc : RunAcc) (c : Candidate) (pos : Nat),
      (persistPhase acc c pos).mark = max acc.mark pos ∧
      c.key ∈ (persistPhase acc c pos).records.map (·.key) ∧
      (∀ ref, c.mediaRef = some ref →
        ∃ t ∈ (persistPhase acc c pos).tickets,
          t.key = c.key ∧ t.mediaRef = ref ∧ t.permanentFail = false) ∧
      (∀ (source : List SourceRow) (r : SourceRow), r.position = pos →
        r ∉ readSince (persistPhase acc c pos).mark source)) := by
  refine ⟨?_, ?_, ?_, ?_⟩
  · intro env M k i n st
    exact ⟨rfl, rfl, rfl⟩
  · intro env acc r hv
    have h := processRow_invalid env acc r hv
    exact ⟨h.2.2.2.2, h.1⟩
  · intro env acc c
    exact mediaPhase_mark env acc c
  · intro acc c pos
    refine ⟨rfl, ?_, ?_, ?_⟩
    · rw [persistPhase_keys]
      simp
    · intro ref href
      have hmemt : RetryTicket.mk c.key ref 0 false
          ∈ (persistPhase acc c pos).tickets := by
        simp [persistPhase, href]
      exact ⟨_, hmemt, rfl, rfl, rfl⟩
    · intro source r hpos hmem
      have hm : (persistPhase acc c pos).mark = max acc.mark pos := rfl
      unfold readSince at hmem
      have hlt := (List.mem_filter.mp hmem).2
      rw [hm, decide_eq_true_eq, hpos] at hlt
      omega

/-- C5 witness: the mark facts evaluated at the invalid row rowBad and at
the persistence of candB on the empty accumulator. -/
theorem C5_high_water_mark_witness :
    validate rowBad = none ∧
    (processRow envAllOk accW rowBad).mark = max accW.mark rowBad.position ∧
    (processRow envAllOk accW rowBad).records = accW.records ∧
    (persistPhase accW candB 2).mark = max accW.mark 2 ∧
    candB.key ∈ (persistPhase accW candB 2).records.map (·.key) :=
  ⟨by decide,
    (C5_high_water_mark.2.1 envAllOk accW rowBad (by decide)).1,
    (C5_high_water_mark.2.1 envAllOk accW rowBad (by decide)).2,
    (C5_high_water_mark.2.2.2 accW candB 2).1,
    (C5_high_water_mark.2.2.2 accW candB 2).2.1⟩

/-- C6: a transient media failure never aborts a run (every run over a
readable source finalizes successfully); the IssueRecord of the failing row is
still created and a RetryTicket carrying the media reference and attempt
counter 1 is enqueued; every row is still checked whatever the media
outcomes; the drain that opens each run attempts exactly the
non-permanent tickets, oldest first; with no new rows the store and
ledger after the run are exactly the drain output; a ticket hitting the configured
maximum attempt count is surfaced in the run errors and retained marked
permanent, never dropped; and permanently failed tickets are retained
but no longer attempted. -/
theorem C6_media_retry_isolation :
    (∀ (env : String → MediaResult) (M : Nat) (k : TriggerKind) (i n : Nat)
        (rows : List SourceRow) (st : EngineState),
      (runSummary env M k i n (some rows) st).status = RunStatus.success) ∧
    (∀ (env : String → MediaResult) (acc : RunAcc) (r : SourceRow)
        (c : Candidate) (ref : String),
      validate r = some c → c.mediaRef = some ref →
      env ref = MediaResult.transientErr →
      acc.records.any (fun rec => rec.key == c.key) = false →
      c.key ∈ (processRow env acc r).records.map (·.key) ∧
      (processRow env acc r).created = acc.created + 1 ∧
      RetryTicket.mk c.key ref 1 false ∈ (processRow env acc r).tickets) ∧
    (∀ (env : String → MediaResult) (acc : RunAcc) (rows : List SourceRow),
      (processRows env acc rows).checked = acc.checked + rows.length) ∧
    (∀ (env : String → MediaResult) (M : Nat) (records : List IssueRecord)
        (tickets : List RetryTicket),
      (drainTickets env M records tickets).attempted
        = (tickets.filter (fun t => !t.permanentFail)).map (·.key)) ∧
    (∀ (env : String → MediaResult) (M : Nat) (k : TriggerKind) (i n : Nat)
        (st : EngineState),
      (runPipeline env M k i n (some []) st).tickets
        = (drainTickets env M st.records st.tickets).tickets ∧
      (runPipeline env M k i n (some []) st).records
        = (drainTickets env M st.records st.tickets).records) ∧
    (∀ (env : String → MediaResult) (M : Nat) (a : DrainAcc)
        (t : RetryTicket),
      t.permanentFail = false → env t.mediaRef = MediaResult.transientErr →
      M ≤ t.attempts + 1 →
      (drainStep env M a t).tickets
        = a.tickets
          ++ [RetryTicket.mk t.key t.mediaRef (t.attempts + 1) true] ∧
      (drainStep env M a t).errors
        = a.errors ++ ["media permanently failed: " ++ t.mediaRef]) ∧
    (∀ (env : String → MediaResult) (M : Nat) (a : DrainAcc)
        (t : RetryTicket),
      t.permanentFail = true →
      (drainStep env M a t).tickets = a.tickets ++ [t] ∧
      (drainStep env M a t).attempted = a.attempted ∧
      (drainStep env M a t).records = a.records) := by
  refine ⟨?_, ?_, ?_, ?_, ?_, ?_, ?_⟩
  · intro env M k i n rows st
    rfl
  · intro env acc r c ref hv href henv hfresh
    have hstep : processRow env acc r
        = mediaPhase env
          (persistPhase { acc with checked := acc.checked + 1 } c
            r.position) c := by
      unfold processRow
      simp [hv, hfresh]
    refine ⟨?_, ?_, ?_⟩
    · rw [hstep, mediaPhase_records_keys, persistPhase_keys]
      simp
    · rw [hstep,
        (mediaPhase_counts env
          (persistPhase { acc with checked := acc.checked + 1 } c
            r.position) c).2.1]
      rfl
    · rw [hstep]
      have htks : (mediaPhase env
          (persistPhase { acc with checked := acc.checked + 1 } c
            r.position) c).tickets
          = bumpTicket (acc.tickets ++ [RetryTicket.mk c.key ref 0 false])
            c.key := by
        simp [mediaPhase, href, henv, persistPhase]
      rw [htks]
      simp [bumpTicket]
  · intro env acc rows
    exact processRows_checked env rows acc
  · intro env M records tickets
    exact drainTickets_attempted env M records tickets
  · intro env M k i n st
    exact ⟨rfl, rfl⟩
  · intro env M a t hp henv hM
    unfold drainStep
    simp [hp, henv, hM]
  · intro env M a t hp
    unfold drainStep
    simp [hp]

/-- C6 witness: the retry facts evaluated on rowB failing transiently, a
ticket at its last allowed attempt, and a permanently failed ticket. -/
theorem C6_media_retry_isolation_witness :
    validate rowB = some candB ∧
    candB.key ∈ (processRow envAllBad accW rowB).records.map (·.key) ∧
    (processRow envAllBad accW rowB).created = accW.created + 1 ∧
    RetryTicket.mk candB.key "imgB" 1 false
      ∈ (processRow envAllBad accW rowB).tickets ∧
    (drainStep envAllBad 3 drainAccW ticketW).tickets
      = drainAccW.tickets
        ++ [RetryTicket.mk ticketW.key ticketW.mediaRef
          (ticketW.attempts + 1) true] ∧
    (drainStep envAllBad 3 drainAccW ticketP).tickets
      = drainAccW.tickets ++ [ticketP] := by
  have h2 := C6_media_retry_isolation.2.1 envAllBad accW rowB candB "imgB"
    (by decide) rfl rfl (by decide)
  have h6 := C6_media_retry_isolation.2.2.2.2.2.1 envAllBad 3 drainAccW
    ticketW rfl rfl (by decide)
  have h7 := C6_media_retry_isolation.2.2.2.2.2.2 envAllBad 3 drainAccW
    ticketP rfl
  exact ⟨by decide, h2.1, h2.2.1, h2.2.2, h6.1, h7.1⟩

/-- C7: after a manual-trigger POST times out, the recovery path of the Sync Status
page issues only GET /sync/status requests — never a second
trigger POST — with at most maxPollAttempts = 6 poll iterations, spaced
pollIntervalMs = 5000 milliseconds apart. -/
theorem C7_timeout_recovery_no_double_trigger
    (resp : Nat → Option SyncStatusData) (t0 : Nat) :
    Req.postTrigger ∉ (timeoutRecoveryTrace resp t0).reqs ∧
    (∀ q ∈ (timeoutRecoveryTrace resp t0).reqs, q = Req.getStatus) ∧
    (timeoutRecoveryTrace resp t0).polls ≤ maxPollAttempts ∧
    maxPollAttempts = 6 ∧ pollIntervalMs = 5000 := by
  have h := checkSyncCompletion_bound resp t0 maxPollAttempts 0 (by omega)
  refine ⟨?_, h.1, ?_, rfl, rfl⟩
  · intro hmem
    have hq := h.1 _ hmem
    exact Req.noConfusion hq
  · have h2 := h.2
    have hmax : max maxPollAttempts (0 + 1) = maxPollAttempts := by decide
    show (checkSyncCompletion resp t0 0).polls ≤ maxPollAttempts
    omega

/-- C7 witness: the recovery trace on a schedule where every status fetch
throws. -/
theorem C7_timeout_recovery_no_double_trigger_witness :
    Req.postTrigger ∉ (timeoutRecoveryTrace respNoneW 0).reqs ∧
    (∀ q ∈ (timeoutRecoveryTrace respNoneW 0).reqs, q = Req.getStatus) ∧
    (timeoutRecoveryTrace respNoneW 0).polls ≤ maxPollAttempts ∧
    maxPollAttempts = 6 ∧ pollIntervalMs = 5000 :=
  C7_timeout_recovery_no_double_trigger respNoneW 0

/-- C8: GET /sync/status always answers with the three fields: last_sync
is the head of the history, recent_syncs is the history cut to the limit
and stays ordered most recent first, last_failed_sync is only ever a
failed run, and every pipeline execution keeps the history ordered. -/
theorem C8_status_endpoint_shape (limit : Nat) (st : EngineState)
    (hord : historyOrdered st) :
    (getSyncStatus limit st).last_sync = st.history.head? ∧
    (getSyncStatus limit st).recent_syncs = st.history.take limit ∧
    (getSyncStatus limit st).recent_syncs.Pairwise
      (fun a b => b.startedAt ≤ a.startedAt) ∧
    (∀ r, (getSyncStatus limit st).last_failed_sync = some r →
      r.status = RunStatus.failed) ∧
    (∀ (env : String → MediaResult) (M : Nat) (k : TriggerKind) (i n : Nat)
        (source : Option (List SourceRow)),
      (∀ rr ∈ st.history, rr.startedAt ≤ n) →
      historyOrdered (runPipeline env M k i n source st)) := by
  refine ⟨rfl, rfl, ?_, ?_, ?_⟩
  · exact List.Pairwise.sublist (List.take_sublist _ _) hord
  · intro r h
    simp only [getSyncStatus] at h
    cases hl : st.history.filter
        (fun rr => decide (rr.status = RunStatus.failed)) with
    | nil =>
      rw [hl] at h
      simp at h
    | cons x xs =>
      rw [hl] at h
      simp only [List.head?_cons, Option.some_inj] at h
      subst h
      have hx : x ∈ st.history.filter
          (fun rr => decide (rr.status = RunStatus.failed)) := by
        rw [hl]
        exact List.mem_cons_self _ _
      exact of_decide_eq_true (List.mem_filter.mp hx).2
  · intro env M k i n source hmono
    cases source with
    | none =>
      simp only [historyOrdered, runPipeline, runResult]
      exact List.Pairwise.cons (fun b hb => hmono b hb) hord
    | some rows =>
      simp only [historyOrdered, runPipeline, runResult]
      exact List.Pairwise.cons (fun b hb => hmono b hb) hord

/-- C8 witness: the endpoint shape on a concrete two-run history. -/
theorem C8_status_endpoint_shape_witness :
    historyOrdered histState ∧
    (getSyncStatus 5 histState).last_sync = histState.history.head? ∧
    (getSyncStatus 5 histState).recent_syncs = histState.history.take 5 ∧
    (getSyncStatus 5 histState).recent_syncs.Pairwise
      (fun a b => b.startedAt ≤ a.startedAt) :=
  have h := C8_status_endpoint_shape 5 histState (by
    simp [historyOrdered, histState, runW1, runW2])
  ⟨by simp [historyOrdered, histState, runW1, runW2], h.1, h.2.1, h.2.2.1⟩

/-- C9 counterexample: the UI layer does not read any trigger_kind field
off a sync summary; the field it reads for the trigger kind is
sync_type. -/
theorem C9_trigger_kind_counterexample :
    "trigger_kind" ∉ uiSummaryFields ∧ "sync_type" ∈ uiSummaryFields := by
  decide

/-- C9 amended: every SyncRunSummary consumed by the UI layer carries the
schema id, sync_type, started_at, completed_at, status, rows_processed,
rows_created, rows_skipped, errors, and the trigger kind of a run surfaces
through the sync_type field, which alone decides the Manual marker of the
recent-logs line. -/
theorem C9_ui_schema_sync_type :
    uiSummaryFields = ["id", "sync_type", "started_at", "completed_at",
      "status", "rows_processed", "rows_created", "rows_skipped",
      "errors"] ∧
    (∀ s : SyncSummaryJs, s.sync_type = "manual" →
      recentLogMetaLine s
        = toString s.rows_processed ++ " rows processed • "
          ++ toString s.rows_created ++ " created • "
          ++ toString s.rows_skipped ++ " skipped" ++ " • Manual") ∧
    (∀ s : SyncSummaryJs, s.sync_type ≠ "manual" →
      recentLogMetaLine s
        = toString s.rows_processed ++ " rows processed • "
          ++ toString s.rows_created ++ " created • "
          ++ toString s.rows_skipped ++ " skipped") := by
  refine ⟨rfl, ?_, ?_⟩ <;> intro s h <;> simp [recentLogMetaLine, h]

/-- C9 witness: the amended schema claim evaluated on a concrete manual
summary. -/
theorem C9_ui_schema_sync_type_witness :
    summaryW.sync_type = "manual" ∧
    recentLogMetaLine summaryW
      = toString summaryW.rows_processed ++ " rows processed • "
        ++ toString summaryW.rows_created ++ " created • "
        ++ toString summaryW.rows_skipped ++ " skipped" ++ " • Manual" :=
  ⟨rfl, C9_ui_schema_sync_type.2.1 summaryW rfl⟩

/-- C10: on both admin status pages the next-scheduled time is exactly
completed_at of the last sync plus 15 minutes, and is null whenever there
is no status payload, no last sync, or no completion timestamp; the two
pages compute identically. -/
theorem C10_next_scheduled_time (d : SyncStatusData) (ls : SyncSummaryJs)
    (t : Nat) (hls : d.last_sync = some ls)
    (ht : ls.completed_at = some t) :
    getNextScheduledTime (some d) = some (t + 15 * 60000) ∧
    getNextScheduledTimeHall (some d) = some (t + 15 * 60000) ∧
    getNextScheduledTime none = none ∧
    getNextScheduledTimeHall none = none ∧
    (∀ d2 : SyncStatusData, d2.last_sync = none →
      getNextScheduledTime (some d2) = none) ∧
    (∀ (d2 : SyncStatusData) (ls2 : SyncSummaryJs),
      d2.last_sync = some ls2 → ls2.completed_at = none →
      getNextScheduledTime (some d2) = none) ∧
    (∀ s, getNextScheduledTime s = getNextScheduledTimeHall s) := by
  refine ⟨?_, ?_, rfl, rfl, ?_, ?_, ?_⟩
  · simp [getNextScheduledTime, hls, ht, addMinutes]
  · simp [getNextScheduledTimeHall, hls, ht, addMinutes]
  · intro d2 h2
    simp [getNextScheduledTime, h2]
  · intro d2 ls2 h2 hc2
    simp [getNextScheduledTime, h2, hc2]
  · intro s
    rfl

/-- C10 witness: the next-scheduled computation on a concrete payload
whose last sync completed at time 1000. -/
theorem C10_next_scheduled_time_witness :
    statusDataW.last_sync = some summaryW ∧
    summaryW.completed_at = some 1000 ∧
    getNextScheduledTime (some statusDataW) = some (1000 + 15 * 60000) ∧
    getNextScheduledTimeHall (some statusDataW) = some (1000 + 15 * 60000) :=
  have h := C10_next_scheduled_time statusDataW summaryW 1000 rfl rfl
  ⟨rfl, rfl, h.1, h.2.1⟩
